import Mathlib

/-!
Shallow embedding of the rapidval Go validation library
(rule functions, validator aggregation, message translator)
together with theorems checking the specification claims.

Go strings are modelled as Lean `String`; Go `len` on a string (a byte
count over the UTF-8 encoding) is `goLen`.  Go `time.Time` instants are
modelled as points on an integer timeline (`GoTime`), with `0` standing
for the zero time, which suffices for `IsZero` / `Before` / `After`.
Go `interface{}` values, as far as the library inspects them, are the
sum type `GoValue`: the kinds the `isZero` type switch handles
(string, int, bool, time.Time, nil) plus an opaque `other` constructor
for every unsupported dynamic type (e.g. a slice), which carries only a
printable tag.  Go maps `map[string]T` supplied by callers are modelled
as association lists with first-match lookup (a Go map has unique keys).
-/

namespace Rapidval

/-- Go `time.Time` as an abstract instant on an integer timeline;
`instant = 0` represents the zero time (January 1, year 1 UTC). -/
structure GoTime where
  instant : Int
deriving DecidableEq

/-- Models `time.Time.IsZero`. -/
def GoTime.IsZero (t : GoTime) : Bool :=
  t.instant == 0

/-- Models `time.Time.Before` (strict order on instants). -/
def GoTime.Before (a b : GoTime) : Bool :=
  decide (a.instant < b.instant)

/-- Models `time.Time.After` (strict order on instants). -/
def GoTime.After (a b : GoTime) : Bool :=
  decide (b.instant < a.instant)

/-- Go `interface{}` values as inspected by the library: the cases of the
`isZero` type switch plus an opaque constructor for unsupported types. -/
inductive GoValue where
  | str (s : String)
  | int (n : Int)
  | bool (b : Bool)
  | time (t : GoTime)
  | nil
  | other (tag : String)
deriving DecidableEq

/-- First-match lookup in an association list, modelling Go map indexing. -/
def lookupAssoc {α : Type} : List (String × α) → String → Option α
  | [], _ => none
  | (k, v) :: rest, key => if k = key then some v else lookupAssoc rest key

/-- `ValidationError` from the source: field name, message key,
message parameters and the raw offending value. -/
structure ValidationError where
  Field : String
  MessageKey : String
  MessageParams : List (String × GoValue)
  CurrentValue : GoValue
deriving DecidableEq

/-- Message key constants from the source. -/
def MsgRequired : String := "validation.required"

def MsgInvalidEmail : String := "validation.email"

def MsgMinLength : String := "validation.min_length"

def MsgMaxLength : String := "validation.max_length"

def MsgBetween : String := "validation.between"

def MsgDateGreaterThan : String := "validation.date_greater_than"

def MsgDateLessThan : String := "validation.date_less_than"

/-- Go `len` on a string: the byte length of its UTF-8 encoding. -/
def goLen (s : String) : Nat :=
  s.utf8ByteSize

/-- Models `strings.Contains(s, needle)` for a one-character needle. -/
def strContainsChar (s : String) (c : Char) : Bool :=
  s.data.contains c

/-- `isZero` from the source: type switch on the dynamic type of the value;
any type outside the switch is not considered zero. -/
def isZero : GoValue → Bool
  | .str s => s == ""
  | .int n => n == 0
  | .bool b => !b
  | .time t => t.IsZero
  | .nil => true
  | .other _ => false

/-- `Required` from the source: a violation exactly when `isZero` holds. -/
def Required (field : String) (value : GoValue) : Option ValidationError :=
  if isZero value then
    some { Field := field, MessageKey := MsgRequired,
           MessageParams := [("Field", GoValue.str field), ("Value", value)],
           CurrentValue := value }
  else none

/-- `Email` from the source: a violation when the string lacks `@` or `.`. -/
def Email (field : String) (value : String) : Option ValidationError :=
  if !strContainsChar value '@' || !strContainsChar value '.' then
    some { Field := field, MessageKey := MsgInvalidEmail,
           MessageParams := [("Field", GoValue.str field), ("Value", GoValue.str value)],
           CurrentValue := GoValue.str value }
  else none

/-- `MinLength` from the source: violation when `len(value) < min`
(`len` is the UTF-8 byte length). -/
def MinLength (field : String) (value : String) (min : Int) : Option ValidationError :=
  if (goLen value : Int) < min then
    some { Field := field, MessageKey := MsgMinLength,
           MessageParams := [("Field", GoValue.str field), ("Min", GoValue.int min),
                             ("Value", GoValue.str value)],
           CurrentValue := GoValue.str value }
  else none

/-- `MaxLength` from the source: violation when `len(value) > max`. -/
def MaxLength (field : String) (value : String) (max : Int) : Option ValidationError :=
  if (max : Int) < (goLen value : Int) then
    some { Field := field, MessageKey := MsgMaxLength,
           MessageParams := [("Field", GoValue.str field), ("Max", GoValue.int max),
                             ("Value", GoValue.str value)],
           CurrentValue := GoValue.str value }
  else none

/-- `Between` from the source: violation when `value < min || value > max`. -/
def Between (field : String) (value : Int) (min max : Int) : Option ValidationError :=
  if value < min ∨ max < value then
    some { Field := field, MessageKey := MsgBetween,
           MessageParams := [("Field", GoValue.str field), ("Min", GoValue.int min),
                             ("Max", GoValue.int max), ("Value", GoValue.int value)],
           CurrentValue := GoValue.int value }
  else none

/-- `DateGreaterThan` from the source: violation when `value.Before(min)`. -/
def DateGreaterThan (field : String) (value min : GoTime) : Option ValidationError :=
  if value.Before min then
    some { Field := field, MessageKey := MsgDateGreaterThan,
           MessageParams := [("Field", GoValue.str field), ("Min", GoValue.time min),
                             ("Value", GoValue.time value)],
           CurrentValue := GoValue.time value }
  else none

/-- `DateLessThan` from the source: violation when `value.After(max)`. -/
def DateLessThan (field : String) (value max : GoTime) : Option ValidationError :=
  if value.After max then
    some { Field := field, MessageKey := MsgDateLessThan,
           MessageParams := [("Field", GoValue.str field), ("Max", GoValue.time max),
                             ("Value", GoValue.time value)],
           CurrentValue := GoValue.time value }
  else none

/-- `Validator` from the source: holds the accumulated error slice. -/
structure Validator where
  errors : List ValidationError
deriving DecidableEq

/-- `New` from the source: a fresh `Validator` with an empty accumulator. -/
def New : Validator :=
  { errors := [] }

/-- The loop body of `Validator.Validate` from the source: walk the rule
results in order and append every non-nil entry with a non-empty message
key to the accumulator. -/
def collectErrors : List ValidationError → List (Option ValidationError) → List ValidationError
  | acc, [] => acc
  | acc, none :: rest => collectErrors acc rest
  | acc, some e :: rest =>
    if e.MessageKey ≠ "" then collectErrors (acc ++ [e]) rest else collectErrors acc rest

/-- `Validator.Validate` from the source.  The entity's `Validations()`
result is passed as the list `params` (a Go `P`, i.e. `[]*ValidationError`
with `none` for a nil pointer).  Returns the updated validator together
with the returned error: `some errs` models returning the accumulated
`ValidationErrors`, `none` models returning a nil error. -/
def Validator.Validate (v : Validator) (params : List (Option ValidationError)) :
    Validator × Option (List ValidationError) :=
  if params.length = 0 then (v, none)
  else
    let errs := collectErrors v.errors params
    if errs.length > 0 then ({ errors := errs }, some errs)
    else ({ errors := errs }, none)

/-- The entries of a rule-result sequence that contribute an error:
non-absent and carrying a non-empty message key, in original order
(the spec's defensive filtering, stated independently of the loop). -/
def contributing (params : List (Option ValidationError)) : List ValidationError :=
  params.filterMap fun e? =>
    e?.bind fun e => if e.MessageKey = "" then none else some e

/-!
Template model.  Go's `text/template` is external library code; we embed
the fragment the translator uses: plain text interleaved with actions of
the form `\x7b\x7b.Name\x7d\x7d` or `\x7b\x7b.Name1.Name2\x7d\x7d`
(a dot-path of identifiers, optionally surrounded by spaces).  Parsing
yields a list of parts; executing against the error's parameter map
(`map[string]interface{}`) substitutes single-name references — a missing
key prints `<no value>`, like `text/template` on a map — and fails with an
execution error on any multi-name path, since descending a field path into
a `GoValue` (never a struct or map) always fails in Go as well.
-/

/-- A parsed template part: literal text or a dot-path reference. -/
inductive TmplPart where
  | lit (s : String)
  | ref (path : List String)
deriving DecidableEq

/-- A parsed template. -/
abbrev Template := List TmplPart

/-- Characters allowed in a template field identifier. -/
def isIdentChar (c : Char) : Bool :=
  c.isAlpha || c.isDigit || c = '_'

/-- Split a character list on dots. -/
def splitOnDot : List Char → List (List Char)
  | [] => [[]]
  | '.' :: rest => [] :: splitOnDot rest
  | c :: rest =>
    match splitOnDot rest with
    | [] => [[c]]
    | g :: gs => (c :: g) :: gs

/-- Drop leading and trailing spaces of an action body. -/
def trimSpaces (cs : List Char) : List Char :=
  ((cs.dropWhile (· = ' ')).reverse.dropWhile (· = ' ')).reverse

/-- Parse an action body: after trimming it must be a dot-path
`.Name1.Name2...` of non-empty identifiers. -/
def parsePath (act : List Char) : Option (List String) :=
  match trimSpaces act with
  | '.' :: rest =>
    let groups := splitOnDot rest
    if groups.all (fun g => !g.isEmpty && g.all isIdentChar) then
      some (groups.map fun g => String.mk g)
    else none
  | _ => none

/-- Consume characters up to the closing `\x7d\x7d`, returning the action
body and the remainder; fails when the action is never closed. -/
def takeUntilClose : List Char → Option (List Char × List Char)
  | [] => none
  | '\x7d' :: '\x7d' :: rest => some ([], rest)
  | c :: rest =>
    match takeUntilClose rest with
    | none => none
    | some (body, rem) => some (c :: body, rem)

/-- Prepend a literal character, merging with a leading literal part. -/
def consLit (c : Char) : List TmplPart → List TmplPart
  | TmplPart.lit s :: ps => TmplPart.lit (String.mk (c :: s.data)) :: ps
  | ps => TmplPart.lit (String.mk [c]) :: ps

/-- Fuelled scanner for template source text: literal characters until
`\x7b\x7b`, then an action closed by `\x7d\x7d`.  The fuel (the input
length) only bounds recursion; each step consumes at least one character,
so it never runs out on the inputs `parseTemplate` supplies. -/
def parsePartsAux : Nat → List Char → Option (List TmplPart)
  | _, [] => some []
  | 0, _ :: _ => none
  | fuel + 1, '\x7b' :: '\x7b' :: rest =>
    match takeUntilClose rest with
    | none => none
    | some (body, rem) =>
      match parsePath body with
      | none => none
      | some path =>
        match parsePartsAux fuel rem with
        | none => none
        | some ps => some (TmplPart.ref path :: ps)
  | fuel + 1, c :: rest =>
    match parsePartsAux fuel rest with
    | none => none
    | some ps => some (consLit c ps)

/-- Parsing one template source string, modelling `template.Parse`
(restricted to the embedded fragment): `none` models a parse error. -/
def parseTemplate (src : String) : Option Template :=
  parsePartsAux src.data.length src.data

/-- How the template engine prints a parameter value
(Go `fmt` `%v` semantics as used by `text/template`; an untyped nil
prints `<no value>`; an unsupported opaque value prints its tag). -/
def goValueString : GoValue → String
  | .str s => s
  | .int n => toString n
  | .bool b => if b then "true" else "false"
  | .time t => toString t.instant
  | .nil => "<no value>"
  | .other tag => tag

/-- Evaluate one reference against the parameter map.  A single name is
looked up in the map — a missing key renders `<no value>` without error,
as `text/template` does on a map.  A longer path must descend a field of
the looked-up `interface{}` value, which always fails at execution time
(the modelled values are never structs or maps); the result is the
execution error's text. -/
def execRef (params : List (String × GoValue)) : List String → Except String String
  | [] => Except.error "template: executing: unexpected empty action"
  | [n] =>
    match lookupAssoc params n with
    | some v => Except.ok (goValueString v)
    | none => Except.ok "<no value>"
  | n :: _ :: _ =>
    Except.error ("template: executing: cannot evaluate field in type interface at ." ++ n)

/-- Execute a parsed template against a parameter map, modelling
`Template.Execute` into a buffer: the rendered text, or the first
execution error. -/
def execParts : List TmplPart → List (String × GoValue) → Except String String
  | [], _ => Except.ok ""
  | TmplPart.lit s :: rest, ps =>
    match execParts rest ps with
    | Except.error e => Except.error e
    | Except.ok r => Except.ok (s ++ r)
  | TmplPart.ref path :: rest, ps =>
    match execRef ps path with
    | Except.error e => Except.error e
    | Except.ok s =>
      match execParts rest ps with
      | Except.error e => Except.error e
      | Except.ok r => Except.ok (s ++ r)

/-- `Translator` from the source: the message registry and, for each key,
the parsed template (the source stores them in one `template.Template`
namespace and retrieves them with `Lookup`). -/
structure Translator where
  messages : List (String × String)
  templates : List (String × Template)
deriving DecidableEq

/-- Parse every template of the registry in order;
`none` as soon as one is malformed. -/
def parseAll : List (String × String) → Option (List (String × Template))
  | [] => some []
  | (k, m) :: rest =>
    match parseTemplate m with
    | none => none
    | some tp =>
      match parseAll rest with
      | none => none
      | some ts => some ((k, tp) :: ts)

/-- `NewTranslatorWithMessages` from the source: parses every supplied
template at construction; `template.Must` panics on the first malformed
one, modelled as `none` (construction fails, no `Translator` value). -/
def NewTranslatorWithMessages (messages : List (String × String)) : Option Translator :=
  (parseAll messages).map fun ts => { messages := messages, templates := ts }

/-- `defaultMessages` from the source (Turkish default templates). -/
def defaultMessages : List (String × String) :=
  [ (MsgRequired, "\x7b\x7b.Field\x7d\x7d alanı zorunludur"),
    (MsgInvalidEmail, "\x7b\x7b.Field\x7d\x7d geçerli bir email adresi olmalıdır"),
    (MsgMinLength, "\x7b\x7b.Field\x7d\x7d en az \x7b\x7b.Min\x7d\x7d karakter olmalıdır"),
    (MsgMaxLength, "\x7b\x7b.Field\x7d\x7d en fazla \x7b\x7b.Max\x7d\x7d karakter olmalıdır"),
    (MsgBetween, "\x7b\x7b.Field\x7d\x7d \x7b\x7b.Min\x7d\x7d ile \x7b\x7b.Max\x7d\x7d arasında olmalıdır"),
    (MsgDateGreaterThan, "\x7b\x7b.Field\x7d\x7d \x7b\x7b.Min\x7d\x7d tarihinden sonra olmalıdır"),
    (MsgDateLessThan, "\x7b\x7b.Field\x7d\x7d \x7b\x7b.Max\x7d\x7d tarihinden önce olmalıdır") ]

/-- `NewTranslator` from the source: construction from the defaults. -/
def NewTranslator : Option Translator :=
  NewTranslatorWithMessages defaultMessages

/-- `Translator.Translate` from the source.  Key missing from the message
registry, or from the template namespace: return the key.  Otherwise
execute the template; on success return the rendered text.  On an
execution error the source first type-asserts the error to
`*ValidationError` — which can never succeed, since `Execute` reports
execution failures as `*template.ExecError` values (the inner `err`
shadows the `*ValidationError` argument) — and then falls back to
returning `err.Error()`, the execution error's text. -/
def Translator.Translate (t : Translator) (e : ValidationError) : String :=
  match lookupAssoc t.messages e.MessageKey with
  | none => e.MessageKey
  | some _ =>
    match lookupAssoc t.templates e.MessageKey with
    | none => e.MessageKey
    | some tmpl =>
      match execParts tmpl e.MessageParams with
      | Except.ok s => s
      | Except.error msg => msg

/-- The spec's description of a successful render: every placeholder
replaced, in place, by the string representation of its parameter;
stated independently of `execParts` (no error propagation, no
`<no value>` fallback relevant under the resolvedness hypothesis). -/
def substTemplate : List TmplPart → List (String × GoValue) → String
  | [], _ => ""
  | TmplPart.lit s :: rest, ps => s ++ substTemplate rest ps
  | TmplPart.ref path :: rest, ps =>
    (match path with
     | [n] =>
       match lookupAssoc ps n with
       | some v => goValueString v
       | none => ""
     | _ => "") ++ substTemplate rest ps

/-- All references of a template are single parameter names supplied in
the parameter map ("all referenced parameters supplied"). -/
def refsResolved : List TmplPart → List (String × GoValue) → Bool
  | [], _ => true
  | TmplPart.lit _ :: rest, params => refsResolved rest params
  | TmplPart.ref [n] :: rest, params =>
    (lookupAssoc params n).isSome && refsResolved rest params
  | TmplPart.ref _ :: _, _ => false

/-- A concrete violation record, used to instantiate stateful-validator
statements (the record `Required "name" (.str "")` produces). -/
def wErr : ValidationError :=
  { Field := "name", MessageKey := MsgRequired,
    MessageParams := [("Field", GoValue.str "name"), ("Value", GoValue.str "")],
    CurrentValue := GoValue.str "" }

/-- A one-entry registry used to instantiate translator statements. -/
def greetMsgs : List (String × String) :=
  [("greet", "hello \x7b\x7b.Field\x7d\x7d")]

/-- The parse of the `greetMsgs` template. -/
def greetTmpl : Template :=
  [TmplPart.lit "hello ", TmplPart.ref ["Field"]]

/-- The translator `NewTranslatorWithMessages greetMsgs` constructs. -/
def greetTranslator : Translator :=
  { messages := greetMsgs, templates := [("greet", greetTmpl)] }

/-- A violation record carrying the `greet` key with its parameter. -/
def greetErr : ValidationError :=
  { Field := "f", MessageKey := "greet",
    MessageParams := [("Field", GoValue.str "World")],
    CurrentValue := GoValue.nil }

/-- The record `Required "a" (.str "")` produces. -/
def eReqW : ValidationError :=
  { Field := "a", MessageKey := MsgRequired,
    MessageParams := [("Field", GoValue.str "a"), ("Value", GoValue.str "")],
    CurrentValue := GoValue.str "" }

/-- The record `Email "a" "x"` produces. -/
def eEmW : ValidationError :=
  { Field := "a", MessageKey := MsgInvalidEmail,
    MessageParams := [("Field", GoValue.str "a"), ("Value", GoValue.str "x")],
    CurrentValue := GoValue.str "x" }

/-- The record `MinLength "a" "x" 2` produces. -/
def eMinW : ValidationError :=
  { Field := "a", MessageKey := MsgMinLength,
    MessageParams := [("Field", GoValue.str "a"), ("Min", GoValue.int 2),
                      ("Value", GoValue.str "x")],
    CurrentValue := GoValue.str "x" }

/-- The record `MaxLength "a" "xy" 1` produces. -/
def eMaxW : ValidationError :=
  { Field := "a", MessageKey := MsgMaxLength,
    MessageParams := [("Field", GoValue.str "a"), ("Max", GoValue.int 1),
                      ("Value", GoValue.str "xy")],
    CurrentValue := GoValue.str "xy" }

/-- The record `Between "a" 17 18 100` produces. -/
def eBetW : ValidationError :=
  { Field := "a", MessageKey := MsgBetween,
    MessageParams := [("Field", GoValue.str "a"), ("Min", GoValue.int 18),
                      ("Max", GoValue.int 100), ("Value", GoValue.int 17)],
    CurrentValue := GoValue.int 17 }

/-- The record `DateGreaterThan "a" ⟨0⟩ ⟨1⟩` produces. -/
def eDgtW : ValidationError :=
  { Field := "a", MessageKey := MsgDateGreaterThan,
    MessageParams := [("Field", GoValue.str "a"), ("Min", GoValue.time ⟨1⟩),
                      ("Value", GoValue.time ⟨0⟩)],
    CurrentValue := GoValue.time ⟨0⟩ }

/-- The record `DateLessThan "a" ⟨1⟩ ⟨0⟩` produces. -/
def eDltW : ValidationError :=
  { Field := "a", MessageKey := MsgDateLessThan,
    MessageParams := [("Field", GoValue.str "a"), ("Max", GoValue.time ⟨0⟩),
                      ("Value", GoValue.time ⟨1⟩)],
    CurrentValue := GoValue.time ⟨1⟩ }

/-- The accumulator loop appends exactly the contributing entries, in
order, after whatever the accumulator already held. -/
theorem collectErrors_eq (l : List (Option ValidationError)) :
    ∀ acc, collectErrors acc l = acc ++ contributing l := by
  induction l with
  | nil => intro acc; simp [collectErrors, contributing]
  | cons head rest ih =>
    intro acc
    cases head with
    | none => simp [collectErrors, contributing, ih]
    | some e =>
      by_cases hk : e.MessageKey = ""
      · simp [collectErrors, contributing, hk, ih]
      · simp [collectErrors, contributing, hk, ih]

/-- When construction succeeded, looking a key up among the parsed
templates agrees with parsing the key's registered source. -/
theorem parseAll_lookup :
    ∀ (msgs : List (String × String)) (ts : List (String × Template))
      (k src : String) (tp : Template),
      parseAll msgs = some ts →
      lookupAssoc msgs k = some src →
      parseTemplate src = some tp →
      lookupAssoc ts k = some tp := by
  intro msgs
  induction msgs with
  | nil => intro ts k src tp hall hk _; simp [lookupAssoc] at hk
  | cons head rest ih =>
    intro ts k src tp hall hk hp
    obtain ⟨k2, m⟩ := head
    cases hpm : parseTemplate m with
    | none => simp [parseAll, hpm] at hall
    | some tp2 =>
      cases hpr : parseAll rest with
      | none => simp [parseAll, hpm, hpr] at hall
      | some ts' =>
        simp only [parseAll, hpm, hpr] at hall
        injection hall with hall
        subst hall
        by_cases hkk : k2 = k
        · subst hkk
          simp only [lookupAssoc, if_pos rfl] at hk ⊢
          injection hk with hk
          subst hk
          rw [hpm] at hp
          injection hp with hp
          rw [hp]
          simp
        · simp only [lookupAssoc, if_neg hkk] at hk ⊢
          exact ih ts' k src tp hpr hk hp

/-- Under resolved references, execution succeeds and produces exactly
the placeholder-substituted text. -/
theorem execParts_resolved (ps : List (String × GoValue)) :
    ∀ tmpl : List TmplPart, refsResolved tmpl ps = true →
      execParts tmpl ps = Except.ok (substTemplate tmpl ps)
  | [], _ => rfl
  | TmplPart.lit s :: rest, h => by
    have hr := execParts_resolved ps rest (by simpa [refsResolved] using h)
    simp [execParts, substTemplate, hr]
  | TmplPart.ref [] :: rest, h => by simp [refsResolved] at h
  | TmplPart.ref [n] :: rest, h => by
    have h' : (lookupAssoc ps n).isSome = true ∧ refsResolved rest ps = true := by
      simpa [refsResolved, Bool.and_eq_true] using h
    have hr := execParts_resolved ps rest h'.2
    cases hv : lookupAssoc ps n with
    | none => rw [hv] at h'; simp at h'
    | some v => simp [execParts, execRef, substTemplate, hv, hr]
  | TmplPart.ref (n :: m :: tl) :: rest, h => by simp [refsResolved] at h

/-- Construction succeeds exactly when every registered template parses. -/
theorem parseAll_isSome_iff (msgs : List (String × String)) :
    (parseAll msgs).isSome = true ↔
      ∀ p ∈ msgs, (parseTemplate p.2).isSome = true := by
  induction msgs with
  | nil => simp [parseAll]
  | cons head rest ih =>
    obtain ⟨k, m⟩ := head
    cases hpm : parseTemplate m with
    | none => simp [parseAll, hpm]
    | some tp =>
      cases hpr : parseAll rest with
      | none => simp [parseAll, hpm, hpr] at ih ⊢; exact ih
      | some ts => simp [parseAll, hpm, hpr] at ih ⊢; exact ih

/-- C1 (divergence witness): with the registered template
`\x7b\x7b.A.B\x7d\x7d` (well-formed, but failing at execution time on a
parameter map), `Translate` returns the execution error's text, not the
message key `k`: the `*ValidationError` type assertion in the failure
branch can never succeed, so the code falls through to `err.Error()`. -/
theorem translate_render_failure_yields_error_text :
    (NewTranslatorWithMessages [("k", "\x7b\x7b.A.B\x7d\x7d")]).map
        (fun t => t.Translate { Field := "f", MessageKey := "k",
                                MessageParams := [("A", GoValue.str "x")],
                                CurrentValue := GoValue.nil }) =
      some "template: executing: cannot evaluate field in type interface at .A" ∧
    ("template: executing: cannot evaluate field in type interface at .A" : String) ≠ "k" := by
  constructor
  · rfl
  · decide

/-- C2: the accumulator is not reset between `Validate` calls: after a
call that collected errors, a later call with a non-empty rule sequence
contributing nothing still returns the previously accumulated errors. -/
theorem validator_accumulates_across_calls (v : Validator)
    (p1 p2 : List (Option ValidationError)) (errs : List ValidationError)
    (h1 : (v.Validate p1).2 = some errs)
    (h2 : p2 ≠ [])
    (h3 : contributing p2 = []) :
    (v.Validate p1).1.errors = errs ∧
      ((v.Validate p1).1.Validate p2).2 = some errs := by
  by_cases hp : p1.length = 0
  · simp [Validator.Validate, hp] at h1
  · by_cases hE : (collectErrors v.errors p1).length > 0
    · have herrs : errs = collectErrors v.errors p1 := by
        simp only [Validator.Validate, if_neg hp, if_pos hE] at h1
        exact (Option.some.inj h1).symm
      have hst : (v.Validate p1).1 = { errors := collectErrors v.errors p1 } := by
        simp only [Validator.Validate, if_neg hp, if_pos hE]
      have hp2 : ¬ p2.length = 0 := by
        simpa [List.length_eq_zero] using h2
      have hcol2 : collectErrors (collectErrors v.errors p1) p2 =
          collectErrors v.errors p1 := by
        rw [collectErrors_eq p2, h3, List.append_nil]
      constructor
      · rw [hst, herrs]
      · rw [hst]
        simp only [Validator.Validate, if_neg hp2, hcol2, if_pos hE]
        rw [herrs]
    · simp only [Validator.Validate, if_neg hp, if_neg hE] at h1
      exact absurd h1 (by simp)

/-- C2 witness: a first call collecting one error, then a call whose
only entry is absent, still reporting the first call's error. -/
theorem validator_accumulates_across_calls_witness :
    (New.Validate [some wErr]).1.errors = [wErr] ∧
      ((New.Validate [some wErr]).1.Validate [none]).2 = some [wErr] :=
  validator_accumulates_across_calls New [some wErr] [none] [wErr]
    (by decide) (by decide) (by decide)

/-- C3 counterexample: the claim measures length in characters, but the
source's `len` counts UTF-8 bytes.  For the one-character, two-byte
string `é` and `min = 2`, `MinLength` reports no violation although the
character count is below the minimum. -/
theorem minlength_character_count_counterexample :
    ¬ (MinLength "f" "é" 2 = none ↔ (2 : Int) ≤ (("é" : String).length : Int)) := by
  decide

/-- C3 amended: `MinLength f v min` is absent iff the UTF-8 byte length
of `v` is at least `min`, and `MaxLength f v max` is absent iff the
UTF-8 byte length of `v` is at most `max`. -/
theorem minmax_length_byte_iff (f v : String) (min max : Int) :
    (MinLength f v min = none ↔ min ≤ (goLen v : Int)) ∧
    (MaxLength f v max = none ↔ (goLen v : Int) ≤ max) := by
  constructor
  · unfold MinLength
    split <;> rename_i h <;> simp <;> omega
  · unfold MaxLength
    split <;> rename_i h <;> simp <;> omega

/-- C4: `Required` flags a violation exactly on the zero values (empty
string, integer zero, false, zero time, nil), and never on a value of an
unsupported dynamic type (fails open). -/
theorem required_violation_iff_zero_value (f : String) (v : GoValue) (tag : String) :
    (Required f v ≠ none ↔
      (v = GoValue.str "" ∨ v = GoValue.int 0 ∨ v = GoValue.bool false ∨
        (∃ t, v = GoValue.time t ∧ t.instant = 0) ∨ v = GoValue.nil)) ∧
    Required f (GoValue.other tag) = none := by
  constructor
  · cases v <;> simp [Required, isZero, GoTime.IsZero]
  · simp [Required, isZero]

/-- C5: on a fresh validator, `Validate` returns exactly the contributing
entries (non-absent, non-empty message key) in their original order, and
no error when there are none. -/
theorem new_validator_validate_eq_contributing (params : List (Option ValidationError)) :
    (New.Validate params).2 =
      if contributing params = [] then none else some (contributing params) := by
  by_cases hp : params.length = 0
  · have : params = [] := by simpa [List.length_eq_zero] using hp
    subst this
    simp [Validator.Validate, New, contributing]
  · have hne : params ≠ [] := by
      simpa [List.length_eq_zero] using hp
    have hcol : collectErrors New.errors params = contributing params := by
      rw [collectErrors_eq params]; simp [New]
    by_cases hc : contributing params = []
    · simp [Validator.Validate, if_neg hp, hcol, hc, hne]
    · have hlen : (contributing params).length > 0 :=
        List.length_pos.mpr hc
      simp [Validator.Validate, if_neg hp, hcol, hc, if_pos hlen, hne]

/-- C6: translating an error whose key is absent from the registry
returns exactly that key; translating a key present in the registry,
with every referenced parameter supplied, returns the template text with
each placeholder replaced by its parameter's string representation. -/
theorem translate_miss_and_substitution :
    (∀ (t : Translator) (e : ValidationError),
        lookupAssoc t.messages e.MessageKey = none →
        t.Translate e = e.MessageKey) ∧
    (∀ (msgs : List (String × String)) (t : Translator) (e : ValidationError)
        (src : String) (tmpl : Template),
        NewTranslatorWithMessages msgs = some t →
        lookupAssoc msgs e.MessageKey = some src →
        parseTemplate src = some tmpl →
        refsResolved tmpl e.MessageParams = true →
        t.Translate e = substTemplate tmpl e.MessageParams) := by
  constructor
  · intro t e h
    simp [Translator.Translate, h]
  · intro msgs t e src tmpl hc hk hp hres
    obtain ⟨ts, hts, ht⟩ := Option.map_eq_some'.mp hc
    subst ht
    have hlt : lookupAssoc ts e.MessageKey = some tmpl :=
      parseAll_lookup msgs ts e.MessageKey src tmpl hts hk hp
    simp [Translator.Translate, hk, hlt, execParts_resolved e.MessageParams tmpl hres]

/-- C6 witness: an unregistered key comes back verbatim; a registered
greeting template renders with its parameter substituted. -/
theorem translate_miss_and_substitution_witness :
    (Translator.mk [] []).Translate
        { Field := "f", MessageKey := "unknown.key",
          MessageParams := [], CurrentValue := GoValue.nil } = "unknown.key" ∧
    greetTranslator.Translate greetErr = "hello World" := by
  refine ⟨translate_miss_and_substitution.1 _ _ rfl, ?_⟩
  have h := translate_miss_and_substitution.2 greetMsgs greetTranslator greetErr
    "hello \x7b\x7b.Field\x7d\x7d" greetTmpl (by decide) (by decide) (by decide) (by decide)
  rw [h]
  decide

/-- C7: construction parses every registered template up front and
yields a translator exactly when all of them are well-formed; one
malformed template makes construction fail (no translator is produced,
so nothing is deferred to translation time). -/
theorem translator_construction_fail_fast (msgs : List (String × String)) :
    (NewTranslatorWithMessages msgs).isSome = true ↔
      ∀ p ∈ msgs, (parseTemplate p.2).isSome = true := by
  rw [← parseAll_isSome_iff]
  unfold NewTranslatorWithMessages
  cases parseAll msgs <;> simp

/-- C8: `DateGreaterThan f v min` is absent iff `v` is not strictly
before `min`; `DateLessThan f v max` is absent iff `v` is not strictly
after `max`; a value equal to the bound passes both rules. -/
theorem date_bounds_iff (f : String) (v min max : GoTime) :
    (DateGreaterThan f v min = none ↔ ¬ v.instant < min.instant) ∧
    (DateLessThan f v max = none ↔ ¬ max.instant < v.instant) ∧
    DateGreaterThan f v v = none ∧ DateLessThan f v v = none := by
  refine ⟨?_, ?_, ?_, ?_⟩ <;>
    simp [DateGreaterThan, DateLessThan, GoTime.Before, GoTime.After]

/-- C9: `Between f v min max` is absent exactly on the closed interval
`[min, max]`, both boundaries inclusive. -/
theorem between_closed_interval_iff (f : String) (v min max : Int) :
    Between f v min max = none ↔ (min ≤ v ∧ v ≤ max) := by
  unfold Between
  split <;> rename_i h <;> simp <;> omega

/-- C10: whenever a rule reports a violation, the record's `Field` is the
field argument, its parameters bind `"Field"` to that same field and
`"Value"` to the exact raw checked value, and `CurrentValue` is that same
raw value (not a stringified form). -/
theorem rule_violation_record_fields :
    (∀ (f : String) (v : GoValue) (e : ValidationError), Required f v = some e →
        e.Field = f ∧ lookupAssoc e.MessageParams "Field" = some (GoValue.str f) ∧
        lookupAssoc e.MessageParams "Value" = some v ∧ e.CurrentValue = v) ∧
    (∀ (f v : String) (e : ValidationError), Email f v = some e →
        e.Field = f ∧ lookupAssoc e.MessageParams "Field" = some (GoValue.str f) ∧
        lookupAssoc e.MessageParams "Value" = some (GoValue.str v) ∧
        e.CurrentValue = GoValue.str v) ∧
    (∀ (f v : String) (min : Int) (e : ValidationError), MinLength f v min = some e →
        e.Field = f ∧ lookupAssoc e.MessageParams "Field" = some (GoValue.str f) ∧
        lookupAssoc e.MessageParams "Value" = some (GoValue.str v) ∧
        e.CurrentValue = GoValue.str v) ∧
    (∀ (f v : String) (max : Int) (e : ValidationError), MaxLength f v max = some e →
        e.Field = f ∧ lookupAssoc e.MessageParams "Field" = some (GoValue.str f) ∧
        lookupAssoc e.MessageParams "Value" = some (GoValue.str v) ∧
        e.CurrentValue = GoValue.str v) ∧
    (∀ (f : String) (v min max : Int) (e : ValidationError), Between f v min max = some e →
        e.Field = f ∧ lookupAssoc e.MessageParams "Field" = some (GoValue.str f) ∧
        lookupAssoc e.MessageParams "Value" = some (GoValue.int v) ∧
        e.CurrentValue = GoValue.int v) ∧
    (∀ (f : String) (v min : GoTime) (e : ValidationError), DateGreaterThan f v min = some e →
        e.Field = f ∧ lookupAssoc e.MessageParams "Field" = some (GoValue.str f) ∧
        lookupAssoc e.MessageParams "Value" = some (GoValue.time v) ∧
        e.CurrentValue = GoValue.time v) ∧
    (∀ (f : String) (v max : GoTime) (e : ValidationError), DateLessThan f v max = some e →
        e.Field = f ∧ lookupAssoc e.MessageParams "Field" = some (GoValue.str f) ∧
        lookupAssoc e.MessageParams "Value" = some (GoValue.time v) ∧
        e.CurrentValue = GoValue.time v) := by
  refine ⟨?_, ?_, ?_, ?_, ?_, ?_, ?_⟩
  · intro f v e h
    unfold Required at h
    split at h
    · cases h; exact ⟨rfl, rfl, rfl, rfl⟩
    · exact absurd h (by simp)
  · intro f v e h
    unfold Email at h
    split at h
    · cases h; exact ⟨rfl, rfl, rfl, rfl⟩
    · exact absurd h (by simp)
  · intro f v min e h
    unfold MinLength at h
    split at h
    · cases h; exact ⟨rfl, rfl, rfl, rfl⟩
    · exact absurd h (by simp)
  · intro f v max e h
    unfold MaxLength at h
    split at h
    · cases h; exact ⟨rfl, rfl, rfl, rfl⟩
    · exact absurd h (by simp)
  · intro f v min max e h
    unfold Between at h
    split at h
    · cases h; exact ⟨rfl, rfl, rfl, rfl⟩
    · exact absurd h (by simp)
  · intro f v min e h
    unfold DateGreaterThan at h
    split at h
    · cases h; exact ⟨rfl, rfl, rfl, rfl⟩
    · exact absurd h (by simp)
  · intro f v max e h
    unfold DateLessThan at h
    split at h
    · cases h; exact ⟨rfl, rfl, rfl, rfl⟩
    · exact absurd h (by simp)

/-- C10 witness: each of the seven rules, applied at a concrete violating
input, reports the field argument as its `Field`, binds `"Value"` to the
raw checked value, and carries it as `CurrentValue`. -/
theorem rule_violation_record_fields_witness :
    (eReqW.Field = "a" ∧ lookupAssoc eReqW.MessageParams "Value" = some (GoValue.str "") ∧
      eReqW.CurrentValue = GoValue.str "") ∧
    (eEmW.Field = "a" ∧ eEmW.CurrentValue = GoValue.str "x") ∧
    (eMinW.Field = "a" ∧ eMinW.CurrentValue = GoValue.str "x") ∧
    (eMaxW.Field = "a" ∧ eMaxW.CurrentValue = GoValue.str "xy") ∧
    (eBetW.Field = "a" ∧ eBetW.CurrentValue = GoValue.int 17) ∧
    (eDgtW.Field = "a" ∧ eDgtW.CurrentValue = GoValue.time ⟨0⟩) ∧
    (eDltW.Field = "a" ∧ eDltW.CurrentValue = GoValue.time ⟨1⟩) := by
  obtain ⟨t1, t2, t3, t4, t5, t6, t7⟩ := rule_violation_record_fields
  have h1 := t1 "a" (GoValue.str "") eReqW (by decide)
  have h2 := t2 "a" "x" eEmW (by decide)
  have h3 := t3 "a" "x" 2 eMinW (by decide)
  have h4 := t4 "a" "xy" 1 eMaxW (by decide)
  have h5 := t5 "a" 17 18 100 eBetW (by decide)
  have h6 := t6 "a" ⟨0⟩ ⟨1⟩ eDgtW (by decide)
  have h7 := t7 "a" ⟨1⟩ ⟨0⟩ eDltW (by decide)
  exact ⟨⟨h1.1, h1.2.2.1, h1.2.2.2⟩, ⟨h2.1, h2.2.2.2⟩, ⟨h3.1, h3.2.2.2⟩,
    ⟨h4.1, h4.2.2.2⟩, ⟨h5.1, h5.2.2.2⟩, ⟨h6.1, h6.2.2.2⟩, ⟨h7.1, h7.2.2.2⟩⟩

end Rapidval
